import Mathlib

/-!
Verification development for the CustomTools repository.

The repository is a set of Python command-line utilities for managing SSH
sessions to network switches.  This file gives a shallow embedding of the
parts relevant to the stated properties:

* the three connection pools (`ConnectionManager.get_connection` in
  `main.py`, `LocalConnectionManager.get_connection` in
  `BulkCommands/main.py`, and `get_ssh_connection` in
  `FDBSearching/main.py`), together with the close operations;
* the bulk-command executor and batch runner of `BulkCommands/main.py`;
* the FDB cache of `FDBSearching/main.py`;
* the version comparator and updater of `update.py`;
* the CSV column loader of `BulkCommands/main.py`.

External effects (the SSH transport, the filesystem, wall-clock time and
operator input) are abstracted into explicit oracle parameters: e.g. a
function `Nat → Bool` saying whether the probe command on a given session
succeeds, or a `String → ExecOutcome` giving the result of running a
command.  Sessions are identified by allocation order (`Nat` ids), which
is enough to express "the same underlying session object" and "a fresh
session".  Fallible Python calls are modelled with `Except`/`Option`.
-/

set_option autoImplicit false

/-! ## Generic character-list helpers

Python string primitives (`str.strip`, `str.split`, `str.lower`,
substring membership) are modelled over `List Char` so that all
definitions reduce well in the kernel. -/

/-- Python `str.strip()` on a character list: drop leading and trailing
whitespace. -/
def stripChars (cs : List Char) : List Char :=
  (cs.dropWhile Char.isWhitespace).reverse.dropWhile Char.isWhitespace |>.reverse

/-- Python `str.strip()`. -/
def pyStrip (s : String) : String :=
  ⟨stripChars s.data⟩

/-- Split a character list on a separator character; like Python
`str.split(sep)`, the empty list yields `[[]]` and separators at the ends
yield empty pieces. -/
def splitChar (sep : Char) : List Char → List Char → List (List Char)
  | acc, [] => [acc.reverse]
  | acc, c :: rest =>
    if c = sep then acc.reverse :: splitChar sep [] rest
    else splitChar sep (c :: acc) rest

/-- Python `s.split(sep)` for a one-character separator. -/
def pySplit (sep : Char) (s : String) : List String :=
  (splitChar sep [] s.data).map fun cs => ⟨cs⟩

/-- ASCII lower-casing of one character (covers the inputs the tools
compare, which are answers like "Y"/"y"). -/
def lowerChar (c : Char) : Char :=
  if 'A' ≤ c ∧ c ≤ 'Z' then Char.ofNat (c.toNat + 32) else c

/-- Python `str.lower()` restricted to ASCII. -/
def pyLower (s : String) : String :=
  ⟨s.data.map lowerChar⟩

/-- Does `sub` occur as a contiguous run inside `hay`? -/
def containsChars : List Char → List Char → Bool
  | _, [] => true
  | [], _ :: _ => false
  | c :: cs, d :: ds =>
    (d :: ds).isPrefixOf (c :: cs) || containsChars cs (d :: ds)

/-- Substring test used to state "the error message names X". -/
def containsStr (hay sub : String) : Bool :=
  containsChars hay.data sub.data

/-! ## Connection pools

A pool is the Python dict `self.connections : host ↦ SSHClient`,
modelled as an association list from host strings to session ids plus a
fresh-id counter.  `Pool.Event` records the externally visible SSH
actions an acquire/close performs, in order. -/

namespace Pool

/-- Observable SSH-level actions of the pool code. -/
inductive Event where
  /-- `exec_command("show system")` issued on a cached session. -/
  | probe (session : Nat)
  /-- `ssh.connect(...)` attempted for a host. -/
  | connect (host : String)
  /-- `close()` attempted on a session. -/
  | closeSession (session : Nat)
deriving DecidableEq, Repr

/-- The pool state: the `connections` dict plus the id the next created
session will receive. -/
structure State where
  connections : List (String × Nat)
  nextId : Nat
deriving DecidableEq, Repr

/-- `host in self.connections` / `self.connections[host]`. -/
def lookupHost (l : List (String × Nat)) (host : String) : Option Nat :=
  match l with
  | [] => none
  | (h, s) :: rest => if h = host then some s else lookupHost rest host

/-- `del self.connections[host]`. -/
def eraseHost (l : List (String × Nat)) (host : String) : List (String × Nat) :=
  match l with
  | [] => []
  | (h, s) :: rest => if h = host then eraseHost rest host else (h, s) :: eraseHost rest host

/-- `self.connections[host] = ssh`. -/
def setHost (l : List (String × Nat)) (host : String) (s : Nat) : List (String × Nat) :=
  (host, s) :: eraseHost l host

/-- Does the event list contain a probe? -/
def hasProbe : List Event → Bool
  | [] => false
  | .probe _ :: _ => true
  | _ :: es => hasProbe es

/-- All sessions referenced by the pool are below the allocation
counter; holds for every state reachable from an empty pool. -/
def WF (st : State) : Prop :=
  ∀ p ∈ st.connections, p.2 < st.nextId

theorem lookupHost_eraseHost (l : List (String × Nat)) (host : String) :
    lookupHost (eraseHost l host) host = none := by
  induction l with
  | nil => rfl
  | cons p rest ih =>
    obtain ⟨h, s⟩ := p
    by_cases hh : h = host <;> simp [eraseHost, lookupHost, hh, ih]

theorem lookupHost_setHost (l : List (String × Nat)) (host : String) (s : Nat) :
    lookupHost (setHost l host s) host = some s := by
  simp [setHost, lookupHost]

theorem lookupHost_mem {l : List (String × Nat)} {host : String} {s : Nat}
    (h : lookupHost l host = some s) : (host, s) ∈ l := by
  induction l with
  | nil => simp [lookupHost] at h
  | cons p rest ih =>
    obtain ⟨h1, s1⟩ := p
    by_cases hh : h1 = host
    · simp [lookupHost, hh] at h
      simp [hh, h]
    · simp [lookupHost, hh] at h
      exact List.mem_cons_of_mem _ (ih h)

end Pool

/-! ## `main.py`: `ConnectionManager`

`get_connection` probes a cached session with `exec_command("show
system")`; on probe failure it closes (errors swallowed) and deletes the
entry, then connects anew.  `probeOk s` is the oracle for whether the
probe on session `s` succeeds, `connectOk` for whether `ssh.connect`
succeeds.  The result carries the returned session (or the propagated
connect error), the updated pool, and the SSH actions in order. -/

namespace CM

/-- The `ssh = paramiko.SSHClient(); ssh.connect(...)` tail of
`get_connection`: on success the new client is stored under `host`; on
failure the exception propagates and nothing is cached. -/
def connectNew (connectOk : Bool) (st : Pool.State) (host : String) :
    Except Unit Nat × Pool.State × List Pool.Event :=
  if connectOk then
    (.ok st.nextId, ⟨Pool.setHost st.connections host st.nextId, st.nextId + 1⟩,
      [.connect host])
  else
    (.error (), st, [.connect host])

/-- `ConnectionManager.get_connection` (src/main.py lines 45-91). -/
def get_connection (probeOk : Nat → Bool) (connectOk : Bool)
    (st : Pool.State) (host : String) :
    Except Unit Nat × Pool.State × List Pool.Event :=
  match Pool.lookupHost st.connections host with
  | some s =>
    if probeOk s then
      (.ok s, st, [.probe s])
    else
      let st1 : Pool.State := ⟨Pool.eraseHost st.connections host, st.nextId⟩
      let r := connectNew connectOk st1 host
      (r.1, r.2.1, .probe s :: .closeSession s :: r.2.2)
  | none => connectNew connectOk st host

/-- One iteration of the `close_all` loop: `ssh_client.close()` inside
`try: ... except Exception: pass`. -/
def closeSwallow (r : Except String Unit) : Except String Unit :=
  match r with
  | .ok _ => .ok ()
  | .error _ => .ok ()

/-- The `for host, ssh_client in self.connections.items()` loop of
`close_all`; `closeRes s` is the outcome of `close()` on session `s`. -/
def closeLoop (closeRes : Nat → Except String Unit) :
    List (String × Nat) → Except String Unit
  | [] => .ok ()
  | (_, s) :: rest => do
    let _ ← closeSwallow (closeRes s)
    closeLoop closeRes rest

/-- `ConnectionManager.close_all` (src/main.py lines 97-105): close every
cached session, swallowing failures, then `self.connections.clear()`. -/
def close_all (closeRes : Nat → Except String Unit) (st : Pool.State) :
    Except String Pool.State := do
  let _ ← closeLoop closeRes st.connections
  return ⟨[], st.nextId⟩

/-- `ConnectionManager.close_connection` (src/main.py lines 107-115).
Note the source performs `del self.connections[host]` inside the `try`
block, after `close()`: if `close()` raises, the `except` swallows the
error but the entry is never deleted. -/
def close_connection (closeRes : Nat → Except String Unit)
    (st : Pool.State) (host : String) : Pool.State :=
  match Pool.lookupHost st.connections host with
  | some s =>
    match closeRes s with
    | .ok _ => ⟨Pool.eraseHost st.connections host, st.nextId⟩
    | .error _ => st
  | none => st

end CM

/-! ## `BulkCommands/main.py`: `LocalConnectionManager`

Its `get_connection` returns a cached session directly, with no probe
command; only a cache miss opens a new connection (wrapping failures in a
new exception, modelled as `.error`). -/

namespace LocalCM

/-- `LocalConnectionManager.get_connection`
(src/BulkCommands/main.py lines 417-452). -/
def get_connection (connectOk : Bool) (st : Pool.State) (host : String) :
    Except Unit Nat × Pool.State × List Pool.Event :=
  match Pool.lookupHost st.connections host with
  | some s => (.ok s, st, [])
  | none => CM.connectNew connectOk st host

/-- `LocalConnectionManager.close_all`
(src/BulkCommands/main.py lines 454-461). -/
def close_all (closeRes : Nat → Except String Unit) (st : Pool.State) :
    Except String Pool.State := do
  let _ ← CM.closeLoop closeRes st.connections
  return ⟨[], st.nextId⟩

end LocalCM

/-! ## `FDBSearching/main.py`: `get_ssh_connection` and
`close_all_connections`

`get_ssh_connection` duplicates the probe/evict/reconnect discipline of
`ConnectionManager.get_connection`; a failed `ssh.connect` propagates
uncaught.  `close_all_connections` duplicates `close_all`. -/

namespace FDB

/-- `get_ssh_connection` (src/FDBSearching/main.py lines 81-117). -/
def get_ssh_connection (probeOk : Nat → Bool) (connectOk : Bool)
    (st : Pool.State) (host : String) :
    Except Unit Nat × Pool.State × List Pool.Event :=
  match Pool.lookupHost st.connections host with
  | some s =>
    if probeOk s then
      (.ok s, st, [.probe s])
    else
      let st1 : Pool.State := ⟨Pool.eraseHost st.connections host, st.nextId⟩
      let r := CM.connectNew connectOk st1 host
      (r.1, r.2.1, .probe s :: .closeSession s :: r.2.2)
  | none => CM.connectNew connectOk st host

/-- `close_all_connections` (src/FDBSearching/main.py lines 120-127). -/
def close_all_connections (closeRes : Nat → Except String Unit)
    (st : Pool.State) : Except String Pool.State := do
  let _ ← CM.closeLoop closeRes st.connections
  return ⟨[], st.nextId⟩

end FDB

namespace FDB

/-! ### The FDB cache (`get_fdb_info`, src/FDBSearching/main.py 37-78)

Wall-clock instants are integers of seconds (`time.time()` readings);
the user's answer to the refresh prompt is the raw `input(...)` string;
`fetchResult` is what `exec_command("show fdb")` would return now. -/

/-- One `fdb_cache[switch_ip]` entry: `{'data': ..., 'timestamp': ...}`. -/
structure CacheEntry where
  data : String
  timestamp : Int
deriving DecidableEq, Repr

/-- `switch_ip in fdb_cache` / `fdb_cache[switch_ip]`. -/
def lookupCache (c : List (String × CacheEntry)) (ip : String) : Option CacheEntry :=
  match c with
  | [] => none
  | (h, e) :: rest => if h = ip then some e else lookupCache rest ip

/-- `fdb_cache[switch_ip] = {...}`. -/
def setCache (c : List (String × CacheEntry)) (ip : String) (e : CacheEntry) :
    List (String × CacheEntry) :=
  (ip, e) :: (c.filter fun p => !(p.1 = ip))

/-- Result of `get_fdb_info`: the returned output, the cache afterwards,
whether `exec_command("show fdb")` was issued, and whether the user was
prompted. -/
structure FdbResult where
  output : String
  cache : List (String × CacheEntry)
  fetched : Bool
  prompted : Bool
deriving DecidableEq, Repr

/-- `get_fdb_info` (src/FDBSearching/main.py lines 37-78).  `cache_duration
= 15 * 60`; a cached entry younger than that is returned silently; a stale
entry triggers the prompt and is still returned when the (lower-cased)
answer is not "y"; otherwise, and on a cache miss or `force_refresh`,
fresh data is fetched and cached with the current time. -/
def get_fdb_info (cache : List (String × CacheEntry)) (switch_ip : String)
    (current_time : Int) (force_refresh : Bool) (answer : String)
    (fetchResult : String) : FdbResult :=
  match lookupCache cache switch_ip, force_refresh with
  | some e, false =>
    if current_time - e.timestamp < 15 * 60 then
      ⟨e.data, cache, false, false⟩
    else if pyLower answer ≠ "y" then
      ⟨e.data, cache, false, true⟩
    else
      ⟨fetchResult, setCache cache switch_ip ⟨fetchResult, current_time⟩, true, true⟩
  | some _, true =>
    ⟨fetchResult, setCache cache switch_ip ⟨fetchResult, current_time⟩, true, false⟩
  | none, _ =>
    ⟨fetchResult, setCache cache switch_ip ⟨fetchResult, current_time⟩, true, false⟩

end FDB

/-! ## `BulkCommands/main.py`: command execution and the batch runner -/

namespace Bulk

/-- How `ssh.exec_command(command, timeout=timeout)` plus the two `read()`
calls behave for a given command: a normal return with stdout/stderr, a
`socket.timeout`, or some other exception with message `msg`. -/
inductive ExecOutcome where
  | ret (out err : String)
  | timeout
  | exn (msg : String)
deriving DecidableEq, Repr

/-- `execute_command` (src/BulkCommands/main.py lines 216-245) without the
wall-clock `exec_time` component: returns `(output, error, success)`. -/
def execute_command (r : ExecOutcome) : String × String × Bool :=
  match r with
  | .ret out err => (out, err, true)
  | .timeout => ("", "Command execution timed out", false)
  | .exn msg => ("", msg, false)

/-- The per-switch stats dict of `process_switch`. -/
structure Stats where
  total : Nat
  success : Nat
  errors : Nat
  connection_failed : Bool
deriving DecidableEq, Repr

/-- What `log_command_execution` records for one command (minus timing). -/
structure LogEntry where
  command : String
  output : String
  error : String
  status : String
deriving DecidableEq, Repr

/-- The status string chosen in `process_switch` (lines 282-293):
`success and not error` → "Success", `success` → "Completed with errors",
otherwise "Failed". -/
def statusOf (success : Bool) (err : String) : String :=
  if success && err = "" then "Success"
  else if success then "Completed with errors"
  else "Failed"

/-- The `for idx, command in enumerate(commands, 1)` loop of
`process_switch`: run each command, update the counters, log the result. -/
def runCommands (exec : String → ExecOutcome) :
    List String → Stats → Stats × List LogEntry
  | [], st => (st, [])
  | cmd :: rest, st =>
    let r := execute_command (exec cmd)
    let ok := r.2.2 && r.2.1 = ""
    let st1 : Stats :=
      { st with
        total := st.total + 1
        success := if ok then st.success + 1 else st.success
        errors := if ok then st.errors else st.errors + 1 }
    let rec' := runCommands exec rest st1
    (rec'.1, ⟨cmd, r.1, r.2.1, statusOf r.2.2 r.2.1⟩ :: rec'.2)

/-- `process_switch` (src/BulkCommands/main.py lines 248-316).  `conn` is
the outcome of `conn_manager.get_connection(switch)`: `none` means it
raised, in which case `connection_failed` is set and no command runs. -/
def process_switch (conn : Option (String → ExecOutcome))
    (commands : List String) : Stats × List LogEntry :=
  match conn with
  | none => (⟨0, 0, 0, true⟩, [])
  | some exec => runCommands exec commands ⟨0, 0, 0, false⟩

/-- The run-wide counters of `run_bulk_commands`. -/
structure Overall where
  total_switches : Nat
  processed : Nat
  connection_failures : Nat
  total_commands : Nat
  total_success : Nat
  total_errors : Nat
deriving DecidableEq, Repr

/-- The `for switch_idx, switch in enumerate(switches, 1)` loop of
`run_bulk_commands`: process each switch and accumulate the overall
stats; also returns each switch's stats and log in order. -/
def runLoop (env : String → Option (String → ExecOutcome))
    (commands : List String) :
    List String → Overall → Overall × List (String × Stats × List LogEntry)
  | [], acc => (acc, [])
  | sw :: rest, acc =>
    let r := process_switch (env sw) commands
    let acc1 : Overall :=
      { acc with
        processed := acc.processed + 1
        total_commands := acc.total_commands + r.1.total
        total_success := acc.total_success + r.1.success
        total_errors := acc.total_errors + r.1.errors
        connection_failures :=
          acc.connection_failures + (if r.1.connection_failed then 1 else 0) }
    let rest' := runLoop env commands rest acc1
    (rest'.1, (sw, r.1, r.2) :: rest'.2)

/-- `run_bulk_commands` (src/BulkCommands/main.py lines 361-399), after
the CSV files have been loaded into `switches` and `commands`.  `env sw`
is `none` when connecting to `sw` fails, else the command oracle for that
switch's session. -/
def run_bulk_commands (env : String → Option (String → ExecOutcome))
    (switches commands : List String) :
    Overall × List (String × Stats × List LogEntry) :=
  runLoop env commands switches ⟨switches.length, 0, 0, 0, 0, 0⟩

end Bulk

/-! ## `update.py`: version comparison and the updater -/

namespace Update

/-- Are `cs` valid Python digits-with-underscores: nonempty, starting
and ending with a digit, each `_` strictly between digits (so `_1`,
`1_`, `1__0` are all rejected, as Python `int` rejects them)?  The run
must begin with a digit; after a digit, either the run ends, or an `_`
must be followed by another such run, or the rest is again such a run. -/
def pyDigitsOk : List Char → Bool
  | [] => false
  | [c] => c.isDigit
  | c :: '_' :: rest2 => c.isDigit && pyDigitsOk rest2
  | c :: c2 :: rest => c.isDigit && pyDigitsOk (c2 :: rest)

/-- Numeric value of a digit run, ignoring the underscore separators. -/
def digitsVal (cs : List Char) : Nat :=
  (cs.filter fun c => !(c = '_')).foldl (fun n c => 10 * n + (c.toNat - 48)) 0

/-- Python `int(s)` for a decimal string: optional surrounding
whitespace, optional sign, then ASCII decimal digits with Python's
underscore rule (non-ASCII digit forms are out of scope for the version
strings compared here); `none` when `int` would raise `ValueError`. -/
def pyInt (s : String) : Option Int :=
  match stripChars s.data with
  | '+' :: rest => if pyDigitsOk rest then some (digitsVal rest) else none
  | '-' :: rest => if pyDigitsOk rest then some (-(digitsVal rest : Int)) else none
  | cs => if pyDigitsOk cs then some (digitsVal cs) else none

/-- `[int(x) for x in v.split('.')]`: `none` when any component fails to
parse. -/
def parseParts (v : String) : Option (List Int) :=
  (pySplit '.' v).mapM pyInt

/-- Python `>` on two integer lists of equal length (lexicographic; the
general longer-wins rule is irrelevant after padding). -/
def listGt : List Int → List Int → Bool
  | [], [] => false
  | [], _ :: _ => false
  | _ :: _, [] => true
  | a :: as, b :: bs =>
    if b < a then true
    else if a < b then false
    else listGt as bs

/-- `is_newer_version` (src/update.py lines 181-194): split on '.', parse
components as ints, right-pad the shorter with zeros, return
`latest_parts > current_parts`; any parse exception yields `False`. -/
def is_newer_version (current latest : String) : Bool :=
  match parseParts current, parseParts latest with
  | some cp, some lp =>
    let m := max cp.length lp.length
    listGt (lp ++ List.replicate (m - lp.length) 0)
      (cp ++ List.replicate (m - cp.length) 0)
  | _, _ => false

/-- `local_tools.get(tool_name, ...)`-style lookup in a `"tools"` dict,
modelled as an association list. -/
def lookupTool (l : List (String × String)) (t : String) : Option String :=
  match l with
  | [] => none
  | (k, v) :: rest => if k = t then some v else lookupTool rest t

/-- `compare_versions` (src/update.py lines 158-178): for every tool in
the remote manifest, take the local version (default "0.0.0") and report
`(tool, current, latest)` when the remote version is newer.  Tools only
present locally are never visited. -/
def compare_versions (localTools remoteTools : List (String × String)) :
    List (String × String × String) :=
  remoteTools.filterMap fun p =>
    let localVersion := (lookupTool localTools p.1).getD "0.0.0"
    if is_newer_version localVersion p.2 then
      some (p.1, localVersion, p.2)
    else none

/-- `copy_tool_folder` (src/update.py lines 253-265): the rmtree/copytree
pair either fully succeeds or raises and is reported as `False`; the
filesystem outcome is the oracle `ok`. -/
def copy_tool_folder (ok : Bool) : Bool := ok

/-- The first loop of `update_tools` (lines 276-289): count the selected
tools whose source folder exists in the extracted repo and whose copy
succeeded. -/
def installLoop (sourceExists copySucceeds : String → Bool) :
    List String → Nat
  | [] => 0
  | t :: rest =>
    (if sourceExists t then
      (if copy_tool_folder (copySucceeds t) then 1 else 0)
     else 0) + installLoop sourceExists copySucceeds rest

/-- `local_versions["tools"][tool_name] = v`. -/
def setTool (l : List (String × String)) (t v : String) :
    List (String × String) :=
  (t, v) :: (l.filter fun p => !(p.1 = t))

/-- The `for tool_name in selected_tools` persistence loop of
`update_tools` (lines 297-299): every selected tool present in the remote
manifest gets its remote version written into the local manifest,
regardless of whether its own copy succeeded. -/
def persistLoop (remoteTools : List (String × String)) :
    List String → List (String × String) → List (String × String)
  | [], localTools => localTools
  | t :: rest, localTools =>
    match lookupTool remoteTools t with
    | some v => persistLoop remoteTools rest (setTool localTools t v)
    | none => persistLoop remoteTools rest localTools

/-- `update_tools` (src/update.py lines 268-306), projected onto the
local `versions.json` content: returns `success_count` and the tools
mapping persisted afterwards (unchanged when `success_count = 0`, since
`save_versions` is only called under `if success_count > 0`). -/
def update_tools (sourceExists copySucceeds : String → Bool)
    (selected : List String) (localTools remoteTools : List (String × String)) :
    Nat × List (String × String) :=
  let success_count := installLoop sourceExists copySucceeds selected
  if success_count > 0 then
    (success_count, persistLoop remoteTools selected localTools)
  else
    (success_count, localTools)

/-- The set of tools whose folder was actually replaced by
`update_tools`: source present and copy succeeded. -/
def replacedTools (sourceExists copySucceeds : String → Bool)
    (selected : List String) : List String :=
  selected.filter fun t => sourceExists t && copy_tool_folder (copySucceeds t)

end Update

/-! ## `BulkCommands/main.py`: `load_csv_column`

A CSV file is its header row plus data rows; `csv.DictReader` pairs each
row with the header positionally (the embedding assumes distinct header
names and rows of header length, which covers the stated properties).
Note the source raises the "Column ... not found" `ValueError` inside the
`try`, so `except Exception` re-wraps it as "Error reading ...", while
the "No items found" `ValueError` is raised after the `try`. -/

namespace Csv

/-- The cell of `row` under column index `idx`. -/
def cellAt (row : List String) (idx : Nat) : String :=
  row.getD idx ""

/-- Index of a column in the header (first occurrence). -/
def colIndex (header : List String) (column : String) : Option Nat :=
  header.indexOf? column

/-- A single quote, written via its code point. -/
def sq : String := "\x27"

/-- The message of the missing-column `ValueError`, as re-wrapped by the
`except Exception` handler of `load_csv_column`. -/
def colErrMsg (path column : String) : String :=
  "Error reading " ++ path ++ ": Column " ++ sq ++ column ++ sq ++
    " not found in " ++ path

/-- The message of the empty-result `ValueError` of `load_csv_column`
(raised outside the `try`, so not re-wrapped). -/
def noItemsMsg (path : String) : String :=
  "No items found in " ++ path

/-- `load_csv_column` (src/BulkCommands/main.py lines 81-119).  `path` is
the file name used in the messages; `header = []` models a file with no
header row (`reader.fieldnames` falsy). -/
def load_csv_column (path column : String) (header : List String)
    (rows : List (List String)) : Except String (List String) :=
  match colIndex header column with
  | none => .error (colErrMsg path column)
  | some idx =>
    let items := rows.filterMap fun row =>
      let value := pyStrip (cellAt row idx)
      if value = "" then none else some value
    if items = [] then
      .error (noItemsMsg path)
    else
      .ok items

end Csv

/-! ## Shared helper lemmas -/

/-- `containsChars` decides contiguous-substring membership. -/
theorem containsChars_iff_infix (hay sub : List Char) :
    containsChars hay sub = true ↔ sub <:+: hay := by
  induction hay with
  | nil =>
    cases sub with
    | nil => simp [containsChars]
    | cons c cs => simp [containsChars]
  | cons c cs ih =>
    cases sub with
    | nil => simp [containsChars]
    | cons d ds =>
      rw [containsChars, List.infix_cons_iff, Bool.or_eq_true,
        List.isPrefixOf_iff_prefix, ih]

/-- `containsStr` decides substring membership on the underlying
character data. -/
theorem containsStr_iff (hay sub : String) :
    containsStr hay sub = true ↔ sub.data <:+: hay.data :=
  containsChars_iff_infix hay.data sub.data

/-- `Update.listGt` is Python's `>` on integer lists: the strict
lexicographic order with the left argument on top. -/
theorem listGt_iff_lex (a b : List Int) :
    Update.listGt a b = true ↔ List.Lex (· < ·) b a := by
  induction a generalizing b with
  | nil =>
    cases b with
    | nil =>
      simp only [Update.listGt, Bool.false_eq_true, false_iff]
      exact List.Lex.not_nil_right _ _
    | cons y ys =>
      simp only [Update.listGt, Bool.false_eq_true, false_iff]
      exact List.Lex.not_nil_right _ _
  | cons x xs ih =>
    cases b with
    | nil =>
      simp only [Update.listGt, true_iff]
      exact List.Lex.nil
    | cons y ys =>
      rw [Update.listGt]
      by_cases h1 : y < x
      · simp only [h1, if_true, true_iff]
        exact List.Lex.rel h1
      · by_cases h2 : x < y
        · simp only [h1, h2, if_false, if_true, Bool.false_eq_true, false_iff]
          intro hlex
          cases hlex with
          | rel h => exact h1 h
          | cons h => exact lt_irrefl _ h2
        · have hxy : x = y := le_antisymm (not_lt.mp h1) (not_lt.mp h2)
          subst hxy
          simp only [h1, h2, if_false, ih]
          constructor
          · intro h
            exact List.Lex.cons h
          · intro h
            cases h with
            | rel hr => exact absurd hr h1
            | cons h => exact h

/-- `Update.lookupTool` returns a binding of the list. -/
theorem lookupTool_mem {l : List (String × String)} {k v : String}
    (h : Update.lookupTool l k = some v) : (k, v) ∈ l := by
  induction l with
  | nil => simp [Update.lookupTool] at h
  | cons p rest ih =>
    obtain ⟨k1, v1⟩ := p
    by_cases hk : k1 = k
    · simp [Update.lookupTool, hk] at h
      simp [hk, h]
    · simp [Update.lookupTool, hk] at h
      exact List.mem_cons_of_mem _ (ih h)

/-- With duplicate-free keys, membership determines the lookup. -/
theorem lookupTool_of_mem_nodup {l : List (String × String)}
    (hnd : (l.map Prod.fst).Nodup) {k v : String} (hp : (k, v) ∈ l) :
    Update.lookupTool l k = some v := by
  induction l with
  | nil => simp at hp
  | cons p rest ih =>
    obtain ⟨k1, v1⟩ := p
    simp only [List.map_cons, List.nodup_cons] at hnd
    rcases List.mem_cons.mp hp with h | h
    · injection h with hk hv
      subst hk
      subst hv
      simp [Update.lookupTool]
    · have hk1 : k1 ≠ k := by
        intro he
        exact hnd.1 (he ▸ List.mem_map_of_mem Prod.fst h)
      simp [Update.lookupTool, hk1]
      exact ih hnd.2 h

/-- A binding whose key is in the list makes the lookup succeed. -/
theorem lookupTool_ne_none_of_mem {l : List (String × String)}
    {p : String × String} (hp : p ∈ l) :
    Update.lookupTool l p.1 ≠ none := by
  induction l with
  | nil => simp at hp
  | cons q rest ih =>
    obtain ⟨k1, v1⟩ := q
    by_cases hk : k1 = p.1
    · simp [Update.lookupTool, hk]
    · rcases List.mem_cons.mp hp with h | h
      · exact absurd (congrArg Prod.fst h.symm) hk
      · simp [Update.lookupTool, hk]
        exact ih h

/-! ## C3: version comparison -/

/-- C3: `is_newer_version` splits on '.', parses components as integers,
zero-pads to equal length and compares integer tuples lexicographically
(`listGt` is exactly the strict lexicographic order):
`is_newer_version "1.2.3" "1.2.10" = true`,
`is_newer_version "1.10.0" "1.9.9" = false`,
`is_newer_version "1.2" "1.2.0" = false`, and any input with a
non-integer component — a letter component like `"abc"` as well as a
misplaced-underscore component like `"_1"`, which Python `int` also
rejects — yields `false`. -/
theorem C3_is_newer_version_spec :
    (∀ a b : List Int, Update.listGt a b = true ↔ List.Lex (· < ·) b a) ∧
    Update.is_newer_version "1.2.3" "1.2.10" = true ∧
    Update.is_newer_version "1.10.0" "1.9.9" = false ∧
    Update.is_newer_version "1.2" "1.2.0" = false ∧
    Update.is_newer_version "abc" "1.0.0" = false ∧
    Update.pyInt "_1" = none ∧
    Update.pyInt "+_1" = none ∧
    Update.is_newer_version "1" "_2" = false ∧
    Update.is_newer_version "0.0.0" "_1" = false ∧
    (∀ current latest : String,
      Update.parseParts current = none ∨ Update.parseParts latest = none →
      Update.is_newer_version current latest = false) := by
  refine ⟨listGt_iff_lex, by decide, by decide, by decide, by decide,
    by decide, by decide, by decide, by decide, ?_⟩
  intro current latest h
  unfold Update.is_newer_version
  rcases h with h | h
  · rw [h]
  · rw [h]
    cases Update.parseParts current <;> rfl

/-- C3 witness: the malformed-input clause applied at `("abc", "1.0.0")`
and at the underscore component `("1", "_2")`. -/
theorem C3_is_newer_version_spec_witness :
    (Update.parseParts "abc" = none ∧
      Update.is_newer_version "abc" "1.0.0" = false) ∧
    (Update.parseParts "_2" = none ∧
      Update.is_newer_version "1" "_2" = false) :=
  ⟨⟨by decide, C3_is_newer_version_spec.2.2.2.2.2.2.2.2.2 "abc" "1.0.0"
      (Or.inl (by decide))⟩,
    ⟨by decide, C3_is_newer_version_spec.2.2.2.2.2.2.2.2.2 "1" "_2"
      (Or.inr (by decide))⟩⟩

/-! ## C10: `compare_versions` and tools missing locally -/

/-- C10: a tool present in the remote manifest but absent from the local
one is treated as having local version "0.0.0": it is reported (with
"current" shown as "0.0.0" and "latest" its remote version) exactly when
its remote version is newer than "0.0.0"; and a tool absent from the
remote manifest is never reported. -/
theorem C10_compare_versions_default :
    ∀ (localTools remoteTools : List (String × String)) (tool rv : String),
      (remoteTools.map Prod.fst).Nodup →
      Update.lookupTool localTools tool = none →
      Update.lookupTool remoteTools tool = some rv →
      (((tool, "0.0.0", rv) ∈ Update.compare_versions localTools remoteTools) ↔
        Update.is_newer_version "0.0.0" rv = true) ∧
      (∀ c lv : String,
        (tool, c, lv) ∈ Update.compare_versions localTools remoteTools →
        c = "0.0.0" ∧ lv = rv) ∧
      (∀ t : String, Update.lookupTool remoteTools t = none →
        ∀ c lv : String,
          (t, c, lv) ∉ Update.compare_versions localTools remoteTools) := by
  intro localTools remoteTools tool rv hnd hlocal hremote
  have hmem : (tool, rv) ∈ remoteTools := lookupTool_mem hremote
  refine ⟨⟨?_, ?_⟩, ?_, ?_⟩
  · intro h
    rcases List.mem_filterMap.mp h with ⟨p, hp, hfp⟩
    obtain ⟨pk, pv⟩ := p
    by_cases hnew : Update.is_newer_version
        ((Update.lookupTool localTools pk).getD "0.0.0") pv = true
    · simp only [hnew, if_true, Option.some.injEq] at hfp
      injection hfp with h1 hrest
      injection hrest with h2 h3
      subst h1
      subst h3
      rw [hlocal, Option.getD_none] at hnew
      exact hnew
    · simp only [if_neg hnew] at hfp
      exact Option.noConfusion hfp
  · intro hnew
    refine List.mem_filterMap.mpr ⟨(tool, rv), hmem, ?_⟩
    simp only [hlocal, Option.getD_none, hnew, if_true]
  · intro c lv h
    rcases List.mem_filterMap.mp h with ⟨p, hp, hfp⟩
    obtain ⟨pk, pv⟩ := p
    by_cases hnew : Update.is_newer_version
        ((Update.lookupTool localTools pk).getD "0.0.0") pv = true
    · simp only [hnew, if_true, Option.some.injEq] at hfp
      injection hfp with h1 hrest
      injection hrest with h2 h3
      subst h1
      have hup := lookupTool_of_mem_nodup hnd hp
      rw [hremote] at hup
      injection hup with h4
      refine ⟨?_, ?_⟩
      · rw [← h2, hlocal, Option.getD_none]
      · rw [← h3, ← h4]
    · simp only [if_neg hnew] at hfp
      exact Option.noConfusion hfp
  · intro t ht c lv h
    rcases List.mem_filterMap.mp h with ⟨p, hp, hfp⟩
    obtain ⟨pk, pv⟩ := p
    by_cases hnew : Update.is_newer_version
        ((Update.lookupTool localTools pk).getD "0.0.0") pv = true
    · simp only [hnew, if_true, Option.some.injEq] at hfp
      injection hfp with h1 hrest
      subst h1
      exact lookupTool_ne_none_of_mem hp ht
    · simp only [if_neg hnew] at hfp
      exact Option.noConfusion hfp

/-! ## C1: connection reuse and the probe discipline -/

/-- After a successful `ConnectionManager.get_connection`, the pool maps
the host to the returned session. -/
theorem CM_get_connection_lookup (probeOk : Nat → Bool) (connectOk : Bool)
    (st : Pool.State) (host : String) {s1 : Nat} {st1 : Pool.State}
    {ev1 : List Pool.Event}
    (h : CM.get_connection probeOk connectOk st host = (.ok s1, st1, ev1)) :
    Pool.lookupHost st1.connections host = some s1 := by
  unfold CM.get_connection at h
  cases hl : Pool.lookupHost st.connections host with
  | some s =>
    cases hp : probeOk s with
    | true =>
      simp only [hl, hp, if_true, Prod.mk.injEq, Except.ok.injEq] at h
      obtain ⟨h1, h2, h3⟩ := h
      subst h1
      subst h2
      exact hl
    | false =>
      rw [hl] at h
      simp only [hp, Bool.false_eq_true, if_false] at h
      unfold CM.connectNew at h
      cases connectOk with
      | true =>
        simp only [if_true, Prod.mk.injEq, Except.ok.injEq] at h
        obtain ⟨h1, h2, h3⟩ := h
        subst h1
        subst h2
        exact Pool.lookupHost_setHost _ _ _
      | false =>
        simp at h
  | none =>
    rw [hl] at h
    simp only [] at h
    unfold CM.connectNew at h
    cases connectOk with
    | true =>
      simp only [if_true, Prod.mk.injEq, Except.ok.injEq] at h
      obtain ⟨h1, h2, h3⟩ := h
      subst h1
      subst h2
      exact Pool.lookupHost_setHost _ _ _
    | false =>
      simp at h

/-- The FDBSearching duplicate of the previous lemma. -/
theorem FDB_get_ssh_connection_lookup (probeOk : Nat → Bool)
    (connectOk : Bool) (st : Pool.State) (host : String) {s1 : Nat}
    {st1 : Pool.State} {ev1 : List Pool.Event}
    (h : FDB.get_ssh_connection probeOk connectOk st host = (.ok s1, st1, ev1)) :
    Pool.lookupHost st1.connections host = some s1 := by
  unfold FDB.get_ssh_connection at h
  cases hl : Pool.lookupHost st.connections host with
  | some s =>
    cases hp : probeOk s with
    | true =>
      simp only [hl, hp, if_true, Prod.mk.injEq, Except.ok.injEq] at h
      obtain ⟨h1, h2, h3⟩ := h
      subst h1
      subst h2
      exact hl
    | false =>
      rw [hl] at h
      simp only [hp, Bool.false_eq_true, if_false] at h
      unfold CM.connectNew at h
      cases connectOk with
      | true =>
        simp only [if_true, Prod.mk.injEq, Except.ok.injEq] at h
        obtain ⟨h1, h2, h3⟩ := h
        subst h1
        subst h2
        exact Pool.lookupHost_setHost _ _ _
      | false =>
        simp at h
  | none =>
    rw [hl] at h
    simp only [] at h
    unfold CM.connectNew at h
    cases connectOk with
    | true =>
      simp only [if_true, Prod.mk.injEq, Except.ok.injEq] at h
      obtain ⟨h1, h2, h3⟩ := h
      subst h1
      subst h2
      exact Pool.lookupHost_setHost _ _ _
    | false =>
      simp at h

/-- Same for `LocalConnectionManager.get_connection`. -/
theorem LocalCM_get_connection_lookup (connectOk : Bool) (st : Pool.State)
    (host : String) {s1 : Nat} {st1 : Pool.State} {ev1 : List Pool.Event}
    (h : LocalCM.get_connection connectOk st host = (.ok s1, st1, ev1)) :
    Pool.lookupHost st1.connections host = some s1 := by
  unfold LocalCM.get_connection at h
  cases hl : Pool.lookupHost st.connections host with
  | some s =>
    simp only [hl, Prod.mk.injEq, Except.ok.injEq] at h
    obtain ⟨h1, h2, h3⟩ := h
    subst h1
    subst h2
    exact hl
  | none =>
    rw [hl] at h
    simp only [] at h
    unfold CM.connectNew at h
    cases connectOk with
    | true =>
      simp only [if_true, Prod.mk.injEq, Except.ok.injEq] at h
      obtain ⟨h1, h2, h3⟩ := h
      subst h1
      subst h2
      exact Pool.lookupHost_setHost _ _ _
    | false =>
      simp at h

/-- C1 counterexample: in `LocalConnectionManager.get_connection` a
first acquire succeeds (creating session 0) and an immediately following
acquire succeeds again returning the same session 0 — but its event list
is empty: no probe command is issued on the cached session before reuse,
contradicting "this holds for every pool implementation". -/
theorem C1_local_no_probe_counterexample :
    LocalCM.get_connection true ⟨[], 0⟩ "10.10.1.1" =
      (.ok 0, ⟨[("10.10.1.1", 0)], 1⟩, [.connect "10.10.1.1"]) ∧
    LocalCM.get_connection true ⟨[("10.10.1.1", 0)], 1⟩ "10.10.1.1" =
      (.ok 0, ⟨[("10.10.1.1", 0)], 1⟩, []) ∧
    Pool.hasProbe [] = false :=
  ⟨by rfl, by rfl, by rfl⟩

/-- C1 (amended): when an acquire succeeds and the probe on the returned
session then succeeds, a second acquire for the same host returns the
same underlying session with the probe issued before reuse — for
`ConnectionManager.get_connection` and `get_ssh_connection`;
`LocalConnectionManager.get_connection` also returns the same cached
session on the second acquire, but issues no probe at all. -/
theorem C1_pool_reuse_amended :
    ∀ (probeOk : Nat → Bool) (connectOk : Bool) (st : Pool.State)
      (host : String) (s1 : Nat) (st1 : Pool.State) (ev1 : List Pool.Event),
      (CM.get_connection probeOk connectOk st host = (.ok s1, st1, ev1) →
        probeOk s1 = true →
        CM.get_connection probeOk connectOk st1 host =
          (.ok s1, st1, [.probe s1])) ∧
      (FDB.get_ssh_connection probeOk connectOk st host =
          (.ok s1, st1, ev1) →
        probeOk s1 = true →
        FDB.get_ssh_connection probeOk connectOk st1 host =
          (.ok s1, st1, [.probe s1])) ∧
      (LocalCM.get_connection connectOk st host = (.ok s1, st1, ev1) →
        LocalCM.get_connection connectOk st1 host = (.ok s1, st1, [])) := by
  intro probeOk connectOk st host s1 st1 ev1
  refine ⟨?_, ?_, ?_⟩
  · intro h hp
    have hl := CM_get_connection_lookup probeOk connectOk st host h
    unfold CM.get_connection
    simp [hl, hp]
  · intro h hp
    have hl := FDB_get_ssh_connection_lookup probeOk connectOk st host h
    unfold FDB.get_ssh_connection
    simp [hl, hp]
  · intro h
    have hl := LocalCM_get_connection_lookup connectOk st host h
    unfold LocalCM.get_connection
    simp [hl]

/-- C1 witness: a concrete first acquire (connect succeeds, session 0)
followed by the second acquire, for all three pools. -/
theorem C1_pool_reuse_amended_witness :
    CM.get_connection (fun _ => true) true ⟨[], 0⟩ "10.10.1.1" =
      (.ok 0, ⟨[("10.10.1.1", 0)], 1⟩, [.connect "10.10.1.1"]) ∧
    CM.get_connection (fun _ => true) true ⟨[("10.10.1.1", 0)], 1⟩
      "10.10.1.1" = (.ok 0, ⟨[("10.10.1.1", 0)], 1⟩, [.probe 0]) ∧
    FDB.get_ssh_connection (fun _ => true) true ⟨[("10.10.1.1", 0)], 1⟩
      "10.10.1.1" = (.ok 0, ⟨[("10.10.1.1", 0)], 1⟩, [.probe 0]) ∧
    LocalCM.get_connection true ⟨[("10.10.1.1", 0)], 1⟩ "10.10.1.1" =
      (.ok 0, ⟨[("10.10.1.1", 0)], 1⟩, []) := by
  have h := C1_pool_reuse_amended (fun _ => true) true ⟨[], 0⟩ "10.10.1.1" 0
    ⟨[("10.10.1.1", 0)], 1⟩ [.connect "10.10.1.1"]
  exact ⟨by rfl, h.1 (by rfl) (by rfl), h.2.1 (by rfl) (by rfl),
    h.2.2 (by rfl)⟩

/-! ## C5: `release_all` empties the pool and never raises -/

/-- Every close failure in the `close_all` loop is swallowed, so the
loop always completes normally. -/
theorem closeLoop_ok (closeRes : Nat → Except String Unit) :
    ∀ l : List (String × Nat), CM.closeLoop closeRes l = .ok () := by
  intro l
  induction l with
  | nil => rfl
  | cons p rest ih =>
    obtain ⟨h, s⟩ := p
    rw [CM.closeLoop]
    cases closeRes s <;>
      simp [CM.closeSwallow, ih, Bind.bind, Except.bind]

/-- C5: `close_all` / `close_all_connections` return normally whatever
the individual close outcomes are, leaving an empty pool; a subsequent
acquire for any host then takes the connect path and returns a freshly
created session, whose id differs from every session the pool held
before. -/
theorem C5_release_all :
    ∀ (closeRes : Nat → Except String Unit) (st : Pool.State),
      CM.close_all closeRes st = .ok ⟨[], st.nextId⟩ ∧
      LocalCM.close_all closeRes st = .ok ⟨[], st.nextId⟩ ∧
      FDB.close_all_connections closeRes st = .ok ⟨[], st.nextId⟩ ∧
      (∀ (probeOk : Nat → Bool) (host : String),
        CM.get_connection probeOk true ⟨[], st.nextId⟩ host =
          (.ok st.nextId, ⟨[(host, st.nextId)], st.nextId + 1⟩,
            [.connect host])) ∧
      (∀ (probeOk : Nat → Bool) (host : String),
        FDB.get_ssh_connection probeOk true ⟨[], st.nextId⟩ host =
          (.ok st.nextId, ⟨[(host, st.nextId)], st.nextId + 1⟩,
            [.connect host])) ∧
      (Pool.WF st → ∀ p ∈ st.connections, p.2 ≠ st.nextId) := by
  intro closeRes st
  refine ⟨?_, ?_, ?_, ?_, ?_, ?_⟩
  · simp [CM.close_all, closeLoop_ok, Bind.bind, Except.bind, Pure.pure,
      Except.pure]
  · simp [LocalCM.close_all, closeLoop_ok, Bind.bind, Except.bind, Pure.pure,
      Except.pure]
  · simp [FDB.close_all_connections, closeLoop_ok, Bind.bind, Except.bind,
      Pure.pure, Except.pure]
  · intro probeOk host
    rfl
  · intro probeOk host
    rfl
  · intro hwf p hp
    exact Nat.ne_of_lt (hwf p hp)

/-- C5 witness: a pool with one session whose close fails is still
emptied, and the next session id is fresh. -/
theorem C5_release_all_witness :
    CM.close_all (fun _ => .error "boom") ⟨[("10.10.1.1", 0)], 1⟩ =
      .ok ⟨[], 1⟩ ∧
    FDB.close_all_connections (fun _ => .error "boom")
      ⟨[("10.10.1.1", 0)], 1⟩ = .ok ⟨[], 1⟩ ∧
    (0 : Nat) ≠ 1 := by
  have h := C5_release_all (fun _ => .error "boom") ⟨[("10.10.1.1", 0)], 1⟩
  have hwf : Pool.WF ⟨[("10.10.1.1", 0)], 1⟩ := by
    intro p hp
    simp at hp
    subst hp
    decide
  exact ⟨h.1, h.2.2.1, h.2.2.2.2.2 hwf ("10.10.1.1", 0) (by simp)⟩

/-! ## C6: `close_connection` -/

/-- C6 counterexample: when the underlying `close()` raises, the
`except` clause swallows the error but the `del` inside the `try` never
runs, so the host remains a key of the pool — contradicting "after any
call, host is not a key of the pool". -/
theorem C6_close_connection_counterexample :
    CM.close_connection (fun _ => .error "socket error")
      ⟨[("10.10.1.1", 0)], 1⟩ "10.10.1.1" = ⟨[("10.10.1.1", 0)], 1⟩ ∧
    Pool.lookupHost
      (CM.close_connection (fun _ => .error "socket error")
        ⟨[("10.10.1.1", 0)], 1⟩ "10.10.1.1").connections "10.10.1.1" =
      some 0 :=
  ⟨by rfl, by rfl⟩

/-- C6 (amended): `close_connection` is a no-op when the host has no
pool entry; when an entry is present and the close succeeds, the entry
is removed and the host is no longer a key of the pool; but when the
close raises, the exception is swallowed and the pool is left unchanged,
the entry included. -/
theorem C6_close_connection_amended :
    ∀ (closeRes : Nat → Except String Unit) (st : Pool.State) (host : String),
      (Pool.lookupHost st.connections host = none →
        CM.close_connection closeRes st host = st) ∧
      (∀ s : Nat, Pool.lookupHost st.connections host = some s →
        closeRes s = .ok () →
        CM.close_connection closeRes st host =
          ⟨Pool.eraseHost st.connections host, st.nextId⟩ ∧
        Pool.lookupHost
          (CM.close_connection closeRes st host).connections host = none) ∧
      (∀ (s : Nat) (e : String),
        Pool.lookupHost st.connections host = some s →
        closeRes s = .error e →
        CM.close_connection closeRes st host = st) := by
  intro closeRes st host
  refine ⟨?_, ?_, ?_⟩
  · intro h
    unfold CM.close_connection
    rw [h]
  · intro s hs hok
    have hres : CM.close_connection closeRes st host =
        ⟨Pool.eraseHost st.connections host, st.nextId⟩ := by
      unfold CM.close_connection
      simp only [hs, hok]
    refine ⟨hres, ?_⟩
    rw [hres]
    exact Pool.lookupHost_eraseHost _ _
  · intro s e hs he
    unfold CM.close_connection
    simp only [hs, he]

/-- C6 witness: the amended theorem at a one-entry pool, once with a
succeeding close and once with a failing one. -/
theorem C6_close_connection_amended_witness :
    CM.close_connection (fun _ => .ok ()) ⟨[("10.10.1.1", 0)], 1⟩
      "10.10.1.1" = ⟨[], 1⟩ ∧
    CM.close_connection (fun _ => .error "socket error")
      ⟨[("10.10.1.1", 0)], 1⟩ "10.10.1.1" = ⟨[("10.10.1.1", 0)], 1⟩ := by
  have h1 := (C6_close_connection_amended (fun _ => .ok ())
    ⟨[("10.10.1.1", 0)], 1⟩ "10.10.1.1").2.1 0 (by rfl) (by rfl)
  have h2 := (C6_close_connection_amended (fun _ => .error "socket error")
    ⟨[("10.10.1.1", 0)], 1⟩ "10.10.1.1").2.2 0 "socket error" (by rfl)
    (by rfl)
  refine ⟨?_, h2⟩
  rw [h1.1]
  rfl

/-! ## C4: the FDB cache -/

/-- Looking up the freshly written cache entry. -/
theorem lookupCache_setCache (c : List (String × FDB.CacheEntry))
    (ip : String) (e : FDB.CacheEntry) :
    FDB.lookupCache (FDB.setCache c ip e) ip = some e := by
  simp [FDB.setCache, FDB.lookupCache]

/-- C4: a lookup performed less than 15 minutes after one that fetched
(here: a first lookup on a cache miss) returns exactly the cached
output, with no remote fetch and no prompt; a cached entry 15 minutes
old or older triggers the refresh prompt, and a declined refresh still
returns the stale cached data with no fetch; `force_refresh` bypasses
the cache unconditionally and fetches fresh data. -/
theorem C4_fdb_cache :
    ∀ (cache : List (String × FDB.CacheEntry)) (ip : String) (t1 t2 : Int)
      (force1 : Bool) (ans1 ans2 fetch1 fetch2 : String),
      (FDB.lookupCache cache ip = none →
        t2 - t1 < 15 * 60 →
        FDB.get_fdb_info
            (FDB.get_fdb_info cache ip t1 force1 ans1 fetch1).cache ip t2
            false ans2 fetch2 =
          ⟨(FDB.get_fdb_info cache ip t1 force1 ans1 fetch1).output,
            (FDB.get_fdb_info cache ip t1 force1 ans1 fetch1).cache,
            false, false⟩) ∧
      (∀ e : FDB.CacheEntry, FDB.lookupCache cache ip = some e →
        ¬(t2 - e.timestamp < 15 * 60) →
        (FDB.get_fdb_info cache ip t2 false ans2 fetch2).prompted = true ∧
        (pyLower ans2 ≠ "y" →
          FDB.get_fdb_info cache ip t2 false ans2 fetch2 =
            ⟨e.data, cache, false, true⟩)) ∧
      FDB.get_fdb_info cache ip t2 true ans2 fetch2 =
        ⟨fetch2, FDB.setCache cache ip ⟨fetch2, t2⟩, true, false⟩ := by
  intro cache ip t1 t2 force1 ans1 ans2 fetch1 fetch2
  refine ⟨?_, ?_, ?_⟩
  · intro hnone hlt
    have h1 : FDB.get_fdb_info cache ip t1 force1 ans1 fetch1 =
        ⟨fetch1, FDB.setCache cache ip ⟨fetch1, t1⟩, true, false⟩ := by
      unfold FDB.get_fdb_info
      cases force1 <;> simp [hnone]
    rw [h1]
    unfold FDB.get_fdb_info
    simp only [lookupCache_setCache]
    rw [if_pos hlt]
  · intro e he hstale
    constructor
    · unfold FDB.get_fdb_info
      simp only [he, if_neg hstale]
      by_cases hy : pyLower ans2 = "y" <;> simp [hy]
    · intro hny
      unfold FDB.get_fdb_info
      simp only [he, if_neg hstale, if_pos hny]
  · unfold FDB.get_fdb_info
    cases hl : FDB.lookupCache cache ip <;> simp [hl]

/-- C4 witness: the three clauses instantiated on concrete caches and
times (600 s after a fetch at time 0, then at exactly 900 s). -/
theorem C4_fdb_cache_witness :
    FDB.get_fdb_info
        (FDB.get_fdb_info [] "10.10.1.1" 0 false "x" "FDB1").cache
        "10.10.1.1" 600 false "x" "FDB2" =
      ⟨(FDB.get_fdb_info [] "10.10.1.1" 0 false "x" "FDB1").output,
        (FDB.get_fdb_info [] "10.10.1.1" 0 false "x" "FDB1").cache,
        false, false⟩ ∧
    (FDB.get_fdb_info [("10.10.1.1", ⟨"OLD", 0⟩)] "10.10.1.1" 900 false "n"
      "NEW").prompted = true ∧
    FDB.get_fdb_info [("10.10.1.1", ⟨"OLD", 0⟩)] "10.10.1.1" 900 false "n"
      "NEW" = ⟨"OLD", [("10.10.1.1", ⟨"OLD", 0⟩)], false, true⟩ ∧
    FDB.get_fdb_info [("10.10.1.1", ⟨"OLD", 0⟩)] "10.10.1.1" 900 true "n"
      "NEW" =
      ⟨"NEW", FDB.setCache [("10.10.1.1", ⟨"OLD", 0⟩)] "10.10.1.1"
        ⟨"NEW", 900⟩, true, false⟩ := by
  have h1 := (C4_fdb_cache [] "10.10.1.1" 0 600 false "x" "x" "FDB1"
    "FDB2").1 (by rfl) (by decide)
  have h2 := (C4_fdb_cache [("10.10.1.1", ⟨"OLD", 0⟩)] "10.10.1.1" 0 900
    false "n" "n" "OLD" "NEW").2.1 ⟨"OLD", 0⟩ (by rfl) (by decide)
  have h3 := (C4_fdb_cache [("10.10.1.1", ⟨"OLD", 0⟩)] "10.10.1.1" 0 900
    false "n" "n" "OLD" "NEW").2.2
  exact ⟨h1, h2.1, h2.2 (by decide), h3⟩

/-! ## C8: `update_tools` and failed replacements -/

/-- C8: evaluation at a failing input.  Tools "A" and "B" are selected;
"A"'s folder copy succeeds and "B"'s fails, so only "A"'s folder is
replaced — yet the persisted versions.json maps "B" to its remote
version 2.0.0, because once `success_count > 0` the persistence loop of
`update_tools` runs over all selected tools, not only the successful
ones. -/
theorem C8_failed_tool_version_persisted :
    Update.replacedTools (fun _ => true) (fun t => t == "A") ["A", "B"] =
      ["A"] ∧
    (Update.update_tools (fun _ => true) (fun t => t == "A") ["A", "B"]
      [("A", "1.0.0"), ("B", "1.0.0")]
      [("A", "2.0.0"), ("B", "2.0.0")]).1 = 1 ∧
    Update.lookupTool
      (Update.update_tools (fun _ => true) (fun t => t == "A") ["A", "B"]
        [("A", "1.0.0"), ("B", "1.0.0")]
        [("A", "2.0.0"), ("B", "2.0.0")]).2 "B" = some "2.0.0" :=
  ⟨by decide, by decide, by decide⟩

/-! ## C7: command executor outcome classification -/

/-- The log entries produced by the `process_switch` command loop do not
depend on the incoming counters: each command yields exactly one entry,
classified from its execution outcome. -/
theorem runCommands_logs (exec : String → Bulk.ExecOutcome)
    (cmds : List String) :
    ∀ st : Bulk.Stats,
      (Bulk.runCommands exec cmds st).2 =
        cmds.map fun cmd =>
          match exec cmd with
          | .ret out err =>
            ⟨cmd, out, err,
              if err = "" then "Success" else "Completed with errors"⟩
          | .timeout => ⟨cmd, "", "Command execution timed out", "Failed"⟩
          | .exn msg => ⟨cmd, "", msg, "Failed"⟩ := by
  induction cmds with
  | nil => intro st; rfl
  | cons cmd rest ih =>
    intro st
    cases hx : exec cmd with
    | ret out err =>
      by_cases herr : err = "" <;>
        simp [Bulk.runCommands, Bulk.execute_command, hx, Bulk.statusOf,
          herr, ih]
    | timeout =>
      simp [Bulk.runCommands, Bulk.execute_command, hx, Bulk.statusOf, ih]
    | exn msg =>
      by_cases hmsg : msg = "" <;>
        simp [Bulk.runCommands, Bulk.execute_command, hx, Bulk.statusOf,
          hmsg, ih]

/-- C7: the executor's outcome is "Success" exactly when the call
returns with empty stderr, "Completed with errors" when it returns with
non-empty stderr, and "Failed" on an exception — a timeout giving the
specific "Command execution timed out" message and any other exception
its own message; every command of the batch is executed and logged
exactly once, in order, regardless of the previous outcomes (no retry,
no early stop). -/
theorem C7_execute_command_outcomes :
    ∀ (exec : String → Bulk.ExecOutcome) (cmds : List String),
      (Bulk.process_switch (some exec) cmds).2 =
        cmds.map fun cmd =>
          match exec cmd with
          | .ret out err =>
            ⟨cmd, out, err,
              if err = "" then "Success" else "Completed with errors"⟩
          | .timeout => ⟨cmd, "", "Command execution timed out", "Failed"⟩
          | .exn msg => ⟨cmd, "", msg, "Failed"⟩ :=
  fun exec cmds => runCommands_logs exec cmds _

/-! ## C2: the bulk run over hosts and commands -/

/-- The command loop counts every command and preserves the
connection-failure flag. -/
theorem runCommands_stats (exec : String → Bulk.ExecOutcome)
    (cmds : List String) :
    ∀ st : Bulk.Stats,
      (Bulk.runCommands exec cmds st).1.total = st.total + cmds.length ∧
      (Bulk.runCommands exec cmds st).1.connection_failed =
        st.connection_failed := by
  induction cmds with
  | nil => intro st; exact ⟨rfl, rfl⟩
  | cons cmd rest ih =>
    intro st
    rw [Bulk.runCommands]
    refine ⟨?_, ?_⟩
    · rw [(ih _).1]
      simp
      omega
    · rw [(ih _).2]

/-- Each log entry's command is the command itself, so the loop logs the
commands in order. -/
theorem runCommands_commands (exec : String → Bulk.ExecOutcome)
    (cmds : List String) :
    ∀ st : Bulk.Stats,
      (Bulk.runCommands exec cmds st).2.map Bulk.LogEntry.command = cmds := by
  induction cmds with
  | nil => intro st; rfl
  | cons cmd rest ih =>
    intro st
    rw [Bulk.runCommands]
    simp [ih]

/-- The switch loop emits one result per switch, in order, each being
`process_switch` of that switch. -/
theorem runLoop_results (env : String → Option (String → Bulk.ExecOutcome))
    (commands : List String) (switches : List String) :
    ∀ acc : Bulk.Overall,
      (Bulk.runLoop env commands switches acc).2 =
        switches.map fun sw => (sw, Bulk.process_switch (env sw) commands) := by
  induction switches with
  | nil => intro acc; rfl
  | cons sw rest ih =>
    intro acc
    rw [Bulk.runLoop]
    simp [ih]

/-- A switch's connection-failure flag is set exactly when its
connection attempt failed. -/
theorem process_switch_failed_iff (conn : Option (String → Bulk.ExecOutcome))
    (commands : List String) :
    (Bulk.process_switch conn commands).1.connection_failed = conn.isNone := by
  cases conn with
  | none => rfl
  | some exec =>
    simp only [Bulk.process_switch, Option.isNone_some]
    exact (runCommands_stats exec commands _).2

/-- The switch loop adds one connection failure per failing switch. -/
theorem runLoop_failures (env : String → Option (String → Bulk.ExecOutcome))
    (commands : List String) (switches : List String) :
    ∀ acc : Bulk.Overall,
      (Bulk.runLoop env commands switches acc).1.connection_failures =
        acc.connection_failures +
          (switches.filter fun sw => (env sw).isNone).length := by
  induction switches with
  | nil => intro acc; rfl
  | cons sw rest ih =>
    intro acc
    rw [Bulk.runLoop]
    rw [ih]
    simp only [List.filter_cons]
    rw [process_switch_failed_iff]
    cases h : (env sw).isNone with
    | false => simp
    | true => simp; omega

/-- C2: in a bulk run, each host's result is exactly `process_switch` of
its own connection outcome; a host whose connection fails records the
single connection-failure flag with zero commands counted and an empty
log (its command list is untouched), every host whose connection
succeeds executes all the commands in order with no failure flag, and
the run-wide connection-failure counter equals the number of failing
hosts. -/
theorem C2_bulk_run_per_host :
    ∀ (env : String → Option (String → Bulk.ExecOutcome))
      (switches commands : List String),
      (Bulk.run_bulk_commands env switches commands).2 =
        (switches.map fun sw => (sw, Bulk.process_switch (env sw) commands)) ∧
      Bulk.process_switch none commands = (⟨0, 0, 0, true⟩, []) ∧
      (∀ exec : String → Bulk.ExecOutcome,
        (Bulk.process_switch (some exec) commands).1.total = commands.length ∧
        (Bulk.process_switch (some exec) commands).1.connection_failed = false ∧
        (Bulk.process_switch (some exec) commands).2.map Bulk.LogEntry.command =
          commands) ∧
      (Bulk.run_bulk_commands env switches commands).1.connection_failures =
        (switches.filter fun sw => (env sw).isNone).length := by
  intro env switches commands
  refine ⟨runLoop_results env commands switches _, rfl, ?_, ?_⟩
  · intro exec
    refine ⟨?_, ?_, runCommands_commands exec commands _⟩
    · have h := (runCommands_stats exec commands ⟨0, 0, 0, false⟩).1
      simpa [Bulk.process_switch] using h
    · exact (runCommands_stats exec commands ⟨0, 0, 0, false⟩).2
  · have h := runLoop_failures env commands switches
      ⟨switches.length, 0, 0, 0, 0, 0⟩
    simpa [Bulk.run_bulk_commands] using h

/-! ## C9: `load_csv_column` error behaviour -/

/-- When the message data decomposes around `sub`, `containsStr` holds. -/
theorem containsStr_of_data {hay sub : String} (s t : List Char)
    (h : hay.data = s ++ sub.data ++ t) : containsStr hay sub = true :=
  (containsStr_iff hay sub).mpr ⟨s, t, h.symm⟩

/-- The skipped-blank items of `load_csv_column` are the stripped cells
with the blank ones filtered out. -/
theorem filterMap_strip_eq (g : List String → String)
    (rows : List (List String)) :
    (rows.filterMap fun row => if g row = "" then none else some (g row)) =
      (rows.map g).filter fun v => !(v == "") := by
  induction rows with
  | nil => rfl
  | cons r rs ih => by_cases h : g r = "" <;> simp [h, ih]

/-- C9 counterexample: a switches file with a header row and only blank
cells under "hostname" raises `ValueError("No items found in sw.csv")`,
whose message does not contain the column name — contradicting the
claim that this error names the file and the column. -/
theorem C9_blank_column_counterexample :
    Csv.load_csv_column "sw.csv" "hostname" ["hostname"] [[""], ["  "]] =
      .error "No items found in sw.csv" ∧
    containsStr "No items found in sw.csv" "hostname" = false :=
  ⟨by rfl, by decide⟩

/-- C9 (amended): a file with a header row but only blank cells under
the target column raises a `ValueError` whose message names the file
(but not the column); a header lacking the required column raises a
`ValueError` naming both the file and the column; on success, blank
cells are skipped: the result is the stripped cells with blanks filtered
out. -/
theorem C9_load_csv_column_errors :
    ∀ (path column : String) (header : List String) (rows : List (List String)),
      (∀ idx, Csv.colIndex header column = some idx →
        (∀ row ∈ rows, pyStrip (Csv.cellAt row idx) = "") →
        Csv.load_csv_column path column header rows =
          .error (Csv.noItemsMsg path) ∧
        containsStr (Csv.noItemsMsg path) path = true) ∧
      (Csv.colIndex header column = none →
        Csv.load_csv_column path column header rows =
          .error (Csv.colErrMsg path column) ∧
        containsStr (Csv.colErrMsg path column) path = true ∧
        containsStr (Csv.colErrMsg path column) column = true) ∧
      (∀ idx, Csv.colIndex header column = some idx →
        ∀ items, Csv.load_csv_column path column header rows = .ok items →
          items = ((rows.map fun row => pyStrip (Csv.cellAt row idx)).filter
            fun v => !(v == ""))) := by
  intro path column header rows
  refine ⟨?_, ?_, ?_⟩
  · intro idx hidx hblank
    have hnil : (rows.filterMap fun row =>
        if pyStrip (Csv.cellAt row idx) = "" then none
        else some (pyStrip (Csv.cellAt row idx))) = [] := by
      rw [List.filterMap_eq_nil_iff]
      intro row hrow
      rw [hblank row hrow]
      rfl
    constructor
    · unfold Csv.load_csv_column
      rw [hidx]
      simp [hnil]
    · exact containsStr_of_data "No items found in ".data []
        (by simp [Csv.noItemsMsg, String.data_append])
  · intro hnone
    refine ⟨?_, ?_, ?_⟩
    · unfold Csv.load_csv_column
      rw [hnone]
    · exact containsStr_of_data "Error reading ".data
        ((": Column " ++ Csv.sq ++ column ++ Csv.sq ++ " not found in " ++
          path).data)
        (by simp [Csv.colErrMsg, String.data_append])
    · exact containsStr_of_data
        (("Error reading " ++ path ++ ": Column " ++ Csv.sq).data)
        ((Csv.sq ++ " not found in " ++ path).data)
        (by simp [Csv.colErrMsg, String.data_append])
  · intro idx hidx items hok
    unfold Csv.load_csv_column at hok
    rw [hidx] at hok
    by_cases hnil : (rows.filterMap fun row =>
        if pyStrip (Csv.cellAt row idx) = "" then none
        else some (pyStrip (Csv.cellAt row idx))) = []
    · simp only [hnil, if_pos rfl] at hok
      exact Except.noConfusion hok
    · simp only [if_neg hnil] at hok
      injection hok with hok
      rw [← hok]
      exact filterMap_strip_eq (fun row => pyStrip (Csv.cellAt row idx)) rows

/-- C9 witness: the amended theorem applied to a concrete all-blank file
and to a concrete file missing the "hostname" column. -/
theorem C9_load_csv_column_errors_witness :
    Csv.load_csv_column "sw.csv" "hostname" ["hostname"] [[""], ["  "]] =
      .error (Csv.noItemsMsg "sw.csv") ∧
    containsStr (Csv.noItemsMsg "sw.csv") "sw.csv" = true ∧
    Csv.load_csv_column "sw.csv" "hostname" ["other"] [["x"]] =
      .error (Csv.colErrMsg "sw.csv" "hostname") ∧
    containsStr (Csv.colErrMsg "sw.csv" "hostname") "hostname" = true := by
  have h1 := (C9_load_csv_column_errors "sw.csv" "hostname" ["hostname"]
    [[""], ["  "]]).1 0 (by decide) (by decide)
  have h2 := (C9_load_csv_column_errors "sw.csv" "hostname" ["other"]
    [["x"]]).2.1 (by decide)
  exact ⟨h1.1, h1.2, h2.1, h2.2.2⟩

/-- C10 witness: with an empty local manifest and remote manifest
`{ToolA ↦ 1.0.0}`, ToolA is reported as `("ToolA", "0.0.0", "1.0.0")`,
and a tool absent remotely is not reported. -/
theorem C10_compare_versions_default_witness :
    ("ToolA", "0.0.0", "1.0.0") ∈
      Update.compare_versions [] [("ToolA", "1.0.0")] ∧
    ("ToolB", "0.0.0", "9.9.9") ∉
      Update.compare_versions [] [("ToolA", "1.0.0")] := by
  have h := C10_compare_versions_default [] [("ToolA", "1.0.0")] "ToolA" "1.0.0"
    (by decide) (by decide) (by decide)
  exact ⟨h.1.mpr (by decide), h.2.2 "ToolB" (by decide) "0.0.0" "9.9.9"⟩
